import Mathlib

/-!
Shallow embedding of the POS repository's core services
(src/services/localStorageService.ts, the cashier cart handlers in
src/pages/SalesHistory.tsx, and the analytics page), together with
theorems settling the specification claims about them.

Modelling conventions:
* money amounts (prices, totals, payments) are rationals,
* stock levels and quantities are integers,
* timestamps are integers (epoch milliseconds); the JS `Date` calendar-day
  bucketing is modelled by floor division by the milliseconds of one day,
* values the code draws from the environment (`Date.now()`, generated ids,
  receipt numbers) are passed in explicitly as environment records,
* `localStorage` is modelled as an explicit `DB` record threaded through
  each operation; an operation returns its outcome together with the new DB.
-/

namespace POS

/-- `interface Product` (types/product.ts). -/
structure Product where
  barcode : String
  name : String
  price : ℚ
  stock : ℤ
  category : String
  deriving Repr, DecidableEq

/-- `interface SaleItem` — immutable line-item snapshot of a sale. -/
structure SaleItem where
  barcode : String
  name : String
  price : ℚ
  quantity : ℤ
  total : ℚ
  deriving Repr, DecidableEq

/-- `type PaymentMethod = 'cash' | 'mobile_money' | 'card'`. -/
inductive PaymentMethod where
  | cash
  | mobile_money
  | card
  deriving Repr, DecidableEq

/-- `interface SaleRecord`. -/
structure SaleRecord where
  id : String
  receiptNumber : String
  items : List SaleItem
  subtotal : ℚ
  tax : ℚ
  total : ℚ
  paymentMethod : PaymentMethod
  amountPaid : ℚ
  change : ℚ
  cashierName : String
  storeId : String
  storeName : String
  timestamp : ℤ
  deriving Repr, DecidableEq

/-- `interface StockLog` — append-only restock audit record. -/
structure StockLog where
  id : String
  barcode : String
  productName : String
  previousStock : ℤ
  newStock : ℤ
  quantityAdded : ℤ
  timestamp : ℤ
  performedBy : String
  deriving Repr, DecidableEq

/-- The persisted collections the claims touch (localStorage keys
`products`, `sales`, `stock_logs`). -/
structure DB where
  products : List Product
  sales : List SaleRecord
  stockLogs : List StockLog
  deriving Repr, DecidableEq

/-- `ProductService.findByBarcode`: `products.find(p => p.barcode === barcode)`. -/
def findByBarcode (products : List Product) (barcode : String) : Option Product :=
  products.find? (fun p => p.barcode == barcode)

/-- JS `findIndex` followed by an in-place mutation of that index:
replaces the first element satisfying `pred` by its image under `f`,
and is a no-op when no element matches. -/
def updateFirst {α : Type} (pred : α → Bool) (f : α → α) : List α → List α
  | [] => []
  | x :: xs => if pred x then f x :: xs else x :: updateFirst pred f xs

/-- Environment inputs `SaleService.processSale` draws from the platform:
the generated `sale-${Date.now()}` id, the generated receipt number, and
the clock reading used for the record timestamp. -/
structure SaleEnv where
  saleId : String
  receiptNumber : String
  now : ℤ
  deriving Repr, DecidableEq

/-- Outcome of `processSale`: `{ success: true, sale, change }` or
`{ success: false, error }`. -/
inductive SaleOutcome where
  | ok (sale : SaleRecord) (change : ℚ)
  | err (msg : String)
  deriving Repr, DecidableEq

/-- The stock-availability loop of `processSale`: walks the items in order
against the products snapshot and returns the first error, if any. -/
def checkStock (products : List Product) : List SaleItem → Option String
  | [] => none
  | item :: rest =>
    match findByBarcode products item.barcode with
    | none => some ("Product " ++ item.name ++ " not found")
    | some product =>
      if product.stock < item.quantity then
        some ("Insufficient stock for " ++ item.name)
      else
        checkStock products rest

/-- The stock-deduction loop of `processSale`: for each item in order,
`findIndex` on the barcode and subtract the item quantity there. -/
def deductStock (products : List Product) (items : List SaleItem) : List Product :=
  items.foldl
    (fun ps item =>
      updateFirst (fun p => p.barcode == item.barcode)
        (fun p => { p with stock := p.stock - item.quantity }) ps)
    products

/-- `SaleService.processSale` (localStorageService.ts lines 1197–1270). -/
def processSale (env : SaleEnv) (db : DB) (items : List SaleItem)
    (paymentMethod : PaymentMethod) (amountPaid : ℚ)
    (cashierName storeId storeName : String) : SaleOutcome × DB :=
  if items.length = 0 then
    (.err "No items in cart", db)
  else
    let subtotal := items.foldl (fun sum item => sum + item.total) 0
    let taxRate : ℚ := 0
    let tax := subtotal * taxRate
    let total := subtotal + tax
    if amountPaid < total then
      (.err "Insufficient payment amount", db)
    else
      let change := amountPaid - total
      match checkStock db.products items with
      | some msg => (.err msg, db)
      | none =>
        let sale : SaleRecord :=
          { id := env.saleId
            receiptNumber := env.receiptNumber
            items := items
            subtotal := subtotal
            tax := tax
            total := total
            paymentMethod := paymentMethod
            amountPaid := amountPaid
            change := change
            cashierName := cashierName
            storeId := storeId
            storeName := storeName
            timestamp := env.now }
        (.ok sale change,
          { db with
              products := deductStock db.products items
              sales := sale :: db.sales })

/-- Environment inputs of `ProductService.restock`: the generated log id
and the clock reading for the log timestamp. -/
structure RestockEnv where
  logId : String
  now : ℤ
  deriving Repr, DecidableEq

/-- `{ success: boolean; error?: string }`. -/
inductive SvcResult where
  | ok
  | err (msg : String)
  deriving Repr, DecidableEq

/-- `ProductService.restock` (localStorageService.ts lines 1022–1058). -/
def restock (env : RestockEnv) (db : DB) (barcode : String) (quantity : ℤ)
    (performedBy : String) : SvcResult × DB :=
  if quantity ≤ 0 then
    (.err "Quantity must be positive", db)
  else
    match findByBarcode db.products barcode with
    | none => (.err "Product not found", db)
    | some product =>
      let previousStock := product.stock
      let newStock := previousStock + quantity
      let log : StockLog :=
        { id := env.logId
          barcode := barcode
          productName := product.name
          previousStock := previousStock
          newStock := newStock
          quantityAdded := quantity
          timestamp := env.now
          performedBy := performedBy }
      (.ok,
        { db with
            products :=
              updateFirst (fun p => p.barcode == barcode)
                (fun p => { p with stock := newStock }) db.products
            stockLogs := log :: db.stockLogs })

/-- `status: 'pending' | 'completed' | 'cancelled'`. -/
inductive TransferStatus where
  | pending
  | completed
  | cancelled
  deriving Repr, DecidableEq

/-- `interface StockTransfer` (types file, part_006). -/
structure StockTransfer where
  id : String
  fromStoreId : String
  toStoreId : String
  fromStoreName : String
  toStoreName : String
  barcode : String
  productName : String
  quantity : ℤ
  status : TransferStatus
  requestedBy : String
  completedAt : Option ℤ
  timestamp : ℤ
  deriving Repr, DecidableEq

/-- The argument of `StockTransferService.create`:
`Omit<StockTransfer, 'id' | 'timestamp'>` — note that it carries `status`,
which `create` copies verbatim. -/
structure TransferInput where
  fromStoreId : String
  toStoreId : String
  fromStoreName : String
  toStoreName : String
  barcode : String
  productName : String
  quantity : ℤ
  status : TransferStatus
  requestedBy : String
  completedAt : Option ℤ
  deriving Repr, DecidableEq

/-- Environment inputs of `StockTransferService.create`: the generated
`transfer-${Date.now()}` id and the clock reading for the timestamp. -/
structure TransferEnv where
  newId : String
  now : ℤ
  deriving Repr, DecidableEq

/-- `StockTransferService.create` (localStorageService.ts lines 1745–1756):
spreads the input, adds id and timestamp, pushes onto the transfers array. -/
def StockTransferService.create (env : TransferEnv)
    (transfers : List StockTransfer) (t : TransferInput) :
    SvcResult × List StockTransfer :=
  let newTransfer : StockTransfer :=
    { id := env.newId
      fromStoreId := t.fromStoreId
      toStoreId := t.toStoreId
      fromStoreName := t.fromStoreName
      toStoreName := t.toStoreName
      barcode := t.barcode
      productName := t.productName
      quantity := t.quantity
      status := t.status
      requestedBy := t.requestedBy
      completedAt := t.completedAt
      timestamp := env.now }
  (.ok, transfers ++ [newTransfer])

/-- `StockTransferService.complete` (lines 1761–1778): `findIndex` on the
id; errors when absent or when the found transfer is not pending; else sets
status to completed and stamps `completedAt` at that index. -/
def StockTransferService.complete (now : ℤ) (transfers : List StockTransfer)
    (transferId : String) : SvcResult × List StockTransfer :=
  match transfers.find? (fun t => t.id == transferId) with
  | none => (.err "Transfer not found", transfers)
  | some t =>
    if t.status ≠ .pending then
      (.err "Transfer is not pending", transfers)
    else
      (.ok,
        updateFirst (fun u => u.id == transferId)
          (fun u => { u with status := .completed, completedAt := some now })
          transfers)

/-- `StockTransferService.cancel` (lines 1783–1798). -/
def StockTransferService.cancel (transfers : List StockTransfer)
    (transferId : String) : SvcResult × List StockTransfer :=
  match transfers.find? (fun t => t.id == transferId) with
  | none => (.err "Transfer not found", transfers)
  | some t =>
    if t.status ≠ .pending then
      (.err "Can only cancel pending transfers", transfers)
    else
      (.ok,
        updateFirst (fun u => u.id == transferId)
          (fun u => { u with status := .cancelled })
          transfers)

/-- `interface CartItem` — ephemeral cashier cart line. -/
structure CartItem where
  product : Product
  quantity : ℤ
  deriving Repr, DecidableEq

/-- The four observable outcomes of `CashierView.handleScan`
(SalesHistory.tsx lines 552–588), read off the notification branches. -/
inductive ScanOutcome where
  | notRegistered
  | stockLimitExceeded
  | outOfStock
  | added
  deriving Repr, DecidableEq

/-- `CashierView.handleScan`: looks up the product, then branches on the
existing cart item; returns the outcome and the new cart state. -/
def handleScan (products : List Product) (cart : List CartItem)
    (barcode : String) : ScanOutcome × List CartItem :=
  match findByBarcode products barcode with
  | none => (.notRegistered, cart)
  | some product =>
    match cart.find? (fun item => item.product.barcode == barcode) with
    | some existingItem =>
      if product.stock ≤ existingItem.quantity then
        (.stockLimitExceeded, cart)
      else
        (.added,
          cart.map (fun item =>
            if item.product.barcode == barcode then
              { item with quantity := item.quantity + 1 }
            else item))
    | none =>
      if product.stock = 0 then
        (.outOfStock, cart)
      else
        (.added, cart ++ [{ product := product, quantity := 1 }])

/-- A `{ count, amount }` cell of `byPaymentMethod`. -/
structure PMStat where
  count : ℕ
  amount : ℚ
  deriving Repr, DecidableEq

/-- `Record<PaymentMethod, { count, amount }>`. -/
structure ByPaymentMethod where
  cash : PMStat
  mobile_money : PMStat
  card : PMStat
  deriving Repr, DecidableEq

/-- All-zero initial accumulator of `getDailyTotals`. -/
def ByPaymentMethod.init : ByPaymentMethod :=
  { cash := ⟨0, 0⟩, mobile_money := ⟨0, 0⟩, card := ⟨0, 0⟩ }

/-- One loop step of `getDailyTotals`:
`byPaymentMethod[sale.paymentMethod].count += 1; ... .amount += sale.total`. -/
def ByPaymentMethod.add (b : ByPaymentMethod) (pm : PaymentMethod)
    (amt : ℚ) : ByPaymentMethod :=
  match pm with
  | .cash => { b with cash := ⟨b.cash.count + 1, b.cash.amount + amt⟩ }
  | .mobile_money =>
      { b with mobile_money := ⟨b.mobile_money.count + 1, b.mobile_money.amount + amt⟩ }
  | .card => { b with card := ⟨b.card.count + 1, b.card.amount + amt⟩ }

/-- Return value of `SaleService.getDailyTotals`. -/
structure DailyTotals where
  totalSales : ℕ
  totalRevenue : ℚ
  totalItems : ℤ
  byPaymentMethod : ByPaymentMethod
  deriving Repr, DecidableEq

/-- `SaleService.getByStore`. -/
def getByStore (sales : List SaleRecord) (storeId : String) : List SaleRecord :=
  sales.filter (fun s => s.storeId == storeId)

/-- `SaleService.getByDateRange`: optional store filter, then the
inclusive date-window filter `startDate <= saleDate <= endDate`. -/
def getByDateRange (sales : List SaleRecord) (startDate endDate : ℤ)
    (storeId : Option String) : List SaleRecord :=
  let base :=
    match storeId with
    | some sid => getByStore sales sid
    | none => sales
  base.filter (fun s => startDate ≤ s.timestamp && s.timestamp ≤ endDate)

/-- `SaleService.getDailyTotals` (lines 1319–1353), with the start and end
of the requested day passed as explicit timestamps. -/
def getDailyTotals (allSales : List SaleRecord) (startOfDay endOfDay : ℤ)
    (storeId : Option String) : DailyTotals :=
  let sales := getByDateRange allSales startOfDay endOfDay storeId
  { totalSales := sales.length
    totalRevenue := sales.foldl (fun sum s => sum + s.total) 0
    totalItems :=
      sales.foldl
        (fun n s => n + s.items.foldl (fun m i => m + i.quantity) 0) 0
    byPaymentMethod :=
      sales.foldl (fun b s => b.add s.paymentMethod s.total) ByPaymentMethod.init }

/-- Milliseconds in one day. -/
def msPerDay : ℤ := 86400000

/-- Calendar-day bucket key of a timestamp: the analytics page keys its
daily revenue buckets by `new Date(sale.timestamp).toDateString()`,
modelled as the floor-division day index of the epoch-millisecond clock. -/
def dayOf (t : ℤ) : ℤ := Int.fdiv t msPerDay

/-- One step of the JS object-as-map accumulation
`dailySales[date] = (dailySales[date] || 0) + sale.total`: insertion-ordered
association list, adding to an existing key or appending a fresh one. -/
def addToBucket : List (ℤ × ℚ) → ℤ → ℚ → List (ℤ × ℚ)
  | [], day, amt => [(day, amt)]
  | (d, v) :: rest, day, amt =>
    if d = day then (d, v + amt) :: rest
    else (d, v) :: addToBucket rest day amt

/-- The per-calendar-day revenue buckets of the forecast computation. -/
def dailyBuckets (sales : List SaleRecord) : List (ℤ × ℚ) :=
  sales.foldl (fun b s => addToBucket b (dayOf s.timestamp) s.total) []

/-- The two deterministic outputs of the forecast; the `next7Days` jitter
series (mean perturbed by `Math.random()`-driven ±10% noise) is UI-only
randomness outside every claim and is not modelled. -/
structure Forecast where
  averageDaily : ℚ
  predictedWeekly : ℚ
  deriving Repr, DecidableEq

/-- The `forecast` memo of the analytics page (part_007 lines 177–200):
`null` (the insufficient-data sentinel) for fewer than 7 sales in the
window; otherwise the mean of the per-day revenue buckets and 7× that. -/
def forecast (sales : List SaleRecord) : Option Forecast :=
  if sales.length < 7 then none
  else
    let dailyValues := (dailyBuckets sales).map Prod.snd
    let average := dailyValues.foldl (fun a b => a + b) 0 / (dailyValues.length : ℚ)
    some { averageDaily := average, predictedWeekly := average * 7 }

/-- An entry of the `productSales` accumulation of `RestockRecommendations`
(part_007 lines 499–531), keyed by barcode in insertion order. -/
structure ProductSaleStat where
  barcode : String
  name : String
  sold : ℤ
  currentStock : ℤ
  deriving Repr, DecidableEq

/-- One item step of the accumulation: create the entry on first sight of
the barcode (stock looked up in the catalog, 0 when absent), then
`sold += item.quantity`. -/
def addItemStat (products : List Product) (stats : List ProductSaleStat)
    (item : SaleItem) : List ProductSaleStat :=
  if stats.any (fun st => st.barcode == item.barcode) then
    updateFirst (fun st => st.barcode == item.barcode)
      (fun st => { st with sold := st.sold + item.quantity }) stats
  else
    stats ++
      [{ barcode := item.barcode
         name := item.name
         sold := item.quantity
         currentStock :=
           match findByBarcode products item.barcode with
           | some p => p.stock
           | none => 0 }]

/-- The full `productSales` accumulation over every item of every sale in
the window. -/
def productSalesStats (products : List Product) (sales : List SaleRecord) :
    List ProductSaleStat :=
  sales.foldl (fun stats sale => sale.items.foldl (addItemStat products) stats) []

/-- A restock recommendation row; `daysRemaining` is `⊤` for the JS
`Infinity` branch taken when the daily velocity is not positive. -/
structure Recommendation where
  barcode : String
  name : String
  sold : ℤ
  currentStock : ℤ
  dailyVelocity : ℚ
  daysRemaining : WithTop ℚ
  deriving DecidableEq

/-- The velocity/days-remaining enrichment of one stat row. -/
def toRecommendation (st : ProductSaleStat) : Recommendation :=
  let dailyVelocity : ℚ := (st.sold : ℚ) / 30
  { barcode := st.barcode
    name := st.name
    sold := st.sold
    currentStock := st.currentStock
    dailyVelocity := dailyVelocity
    daysRemaining :=
      if 0 < dailyVelocity then ((st.currentStock : ℚ) / dailyVelocity : ℚ)
      else ⊤ }

/-- The flagging condition: `daysRemaining < 14 || currentStock < 10`. -/
def flagged (r : Recommendation) : Bool :=
  decide (r.daysRemaining < (14 : WithTop ℚ)) || decide (r.currentStock < 10)

/-- The JS comparator `a.daysRemaining - b.daysRemaining` as the ordering
relation it realises. -/
def recOrder (a b : Recommendation) : Prop :=
  a.daysRemaining ≤ b.daysRemaining

instance : DecidableRel recOrder := fun a b =>
  inferInstanceAs (Decidable (a.daysRemaining ≤ b.daysRemaining))

instance : IsTotal Recommendation recOrder :=
  ⟨fun a b => le_total a.daysRemaining b.daysRemaining⟩

instance : IsTrans Recommendation recOrder :=
  ⟨fun _ _ _ hab hbc => le_trans hab hbc⟩

/-- The `recommendations` memo of `RestockRecommendations`: enrich, filter
by the flag, sort ascending on days remaining (JS `Array.prototype.sort`
is stable, modelled by a stable insertion sort), keep the first 5. -/
def restockRecommendations (products : List Product)
    (sales : List SaleRecord) : List Recommendation :=
  (List.insertionSort recOrder
      (((productSalesStats products sales).map toRecommendation).filter
        flagged)).take 5

/-- The rendered suggestion `Math.ceil(item.sold * 2)` of a row. -/
def suggestedRestock (r : Recommendation) : ℤ := ⌈(r.sold : ℚ) * 2⌉

/-- Number of distinct calendar days among the sales of a window. -/
def distinctDayCount (sales : List SaleRecord) : ℕ :=
  ((sales.map (fun s => dayOf s.timestamp)).dedup).length

/-- One mutating operation of the stock-conservation claim: a restock or a
sale, each carrying its full argument list. -/
inductive Op where
  | restockOp (env : RestockEnv) (barcode : String) (quantity : ℤ)
      (performedBy : String)
  | saleOp (env : SaleEnv) (items : List SaleItem) (pm : PaymentMethod)
      (amountPaid : ℚ) (cashierName storeId storeName : String)
  deriving Repr, DecidableEq

/-- Run one operation: whether it reported success, and the new DB (equal
to the old one whenever the operation failed). -/
def stepOp (db : DB) : Op → Bool × DB
  | .restockOp env b q pb =>
    match restock env db b q pb with
    | (.ok, db') => (true, db')
    | (.err _, db') => (false, db')
  | .saleOp env items pm paid cn si sn =>
    match processSale env db items pm paid cn si sn with
    | (.ok _ _, db') => (true, db')
    | (.err _, db') => (false, db')

/-- Run a sequence of operations left to right. -/
def runOps (db : DB) : List Op → DB
  | [] => db
  | op :: rest => runOps (stepOp db op).2 rest

/-- Every operation of the sequence reports success in the state it runs in. -/
def opsSucceed (db : DB) : List Op → Bool
  | [] => true
  | op :: rest => (stepOp db op).1 && opsSucceed (stepOp db op).2 rest

/-- Quantity the operation restocks for barcode `b`. -/
def restockedOf (b : String) : Op → ℤ
  | .restockOp _ b' q _ => if b' = b then q else 0
  | .saleOp _ _ _ _ _ _ _ => 0

/-- Quantity the operation sells for barcode `b` (summed over line items). -/
def soldOf (b : String) : Op → ℤ
  | .restockOp _ _ _ _ => 0
  | .saleOp _ items _ _ _ _ _ =>
    (items.map (fun i => if i.barcode = b then i.quantity else 0)).sum

/-- The cart discipline: a sale operation's line items carry pairwise
distinct barcodes (the cashier cart keeps one line per product). -/
def saleItemsNodup : Op → Bool
  | .restockOp _ _ _ _ => true
  | .saleOp _ items _ _ _ _ _ => decide (items.map SaleItem.barcode).Nodup

/-- Stock of the first product carrying barcode `b` (0 when absent). -/
def stockOf (products : List Product) (b : String) : ℤ :=
  match findByBarcode products b with
  | some p => p.stock
  | none => 0

/-! Concrete inputs used by witnesses and counterexamples. -/

/-- A fixed sale environment. -/
def envS : SaleEnv := { saleId := "sale-1", receiptNumber := "RCP-1-A", now := 0 }

/-- A fixed restock environment. -/
def envR : RestockEnv := { logId := "log-1", now := 0 }

/-- A fixed transfer environment. -/
def envT : TransferEnv := { newId := "transfer-1", now := 0 }

/-- A catalog product with stock 5. -/
def prodA : Product :=
  { barcode := "123", name := "Widget", price := 10, stock := 5, category := "Other" }

/-- A one-product database. -/
def db0 : DB := { products := [prodA], sales := [], stockLogs := [] }

/-- A line item selling 3 units of `prodA`. -/
def itemA3 : SaleItem :=
  { barcode := "123", name := "Widget", price := 10, quantity := 3, total := 30 }

/-- A cart that lists the same product on two separate lines. -/
def dupItems : List SaleItem := [itemA3, itemA3]

/-- The duplicate-line sale as an operation. -/
def dupSaleOp : Op := .saleOp envS dupItems .cash 60 "cash1" "st1" "Main"

/-- A transfer request input whose status field is not `pending`. -/
def cancelledInput : TransferInput :=
  { fromStoreId := "st1", toStoreId := "st2", fromStoreName := "Main"
    toStoreName := "Annex", barcode := "123", productName := "Widget"
    quantity := 2, status := .cancelled, requestedBy := "Admin"
    completedAt := none }

/-- A pending transfer stored under id `t1`. -/
def pendingT : StockTransfer :=
  { id := "t1", fromStoreId := "st1", toStoreId := "st2", fromStoreName := "Main"
    toStoreName := "Annex", barcode := "123", productName := "Widget"
    quantity := 2, status := .pending, requestedBy := "Admin"
    completedAt := none, timestamp := 0 }

/-- A completed transfer stored under id `t2`. -/
def doneT : StockTransfer := { pendingT with id := "t2", status := .completed }

/-- A sale record over one unit of `prodA`, dated to timestamp `t`. -/
def mkSale (n : ℕ) (t : ℤ) (pm : PaymentMethod) : SaleRecord :=
  { id := "sale-" ++ toString n, receiptNumber := "RCP-" ++ toString n
    items := [{ barcode := "123", name := "Widget", price := 10, quantity := 1, total := 10 }]
    subtotal := 10, tax := 0, total := 10, paymentMethod := pm
    amountPaid := 10, change := 0, cashierName := "cash1"
    storeId := "st1", storeName := "Main", timestamp := t }

/-- Seven same-day sales: enough for the forecast to produce a number. -/
def sales7 : List SaleRecord :=
  [mkSale 1 0 .cash, mkSale 2 0 .cash, mkSale 3 0 .card, mkSale 4 0 .cash,
   mkSale 5 0 .mobile_money, mkSale 6 0 .cash, mkSale 7 0 .cash]

/-- A catalog of six low-stock products `b1` … `b6`. -/
def products6 : List Product :=
  [{ barcode := "b1", name := "P1", price := 1, stock := 5, category := "Other" },
   { barcode := "b2", name := "P2", price := 1, stock := 5, category := "Other" },
   { barcode := "b3", name := "P3", price := 1, stock := 5, category := "Other" },
   { barcode := "b4", name := "P4", price := 1, stock := 5, category := "Other" },
   { barcode := "b5", name := "P5", price := 1, stock := 5, category := "Other" },
   { barcode := "b6", name := "P6", price := 1, stock := 5, category := "Other" }]

/-- A single sale touching all six products once. -/
def sale6 : SaleRecord :=
  { id := "sale-6", receiptNumber := "RCP-6"
    items :=
      [{ barcode := "b1", name := "P1", price := 1, quantity := 1, total := 1 },
       { barcode := "b2", name := "P2", price := 1, quantity := 1, total := 1 },
       { barcode := "b3", name := "P3", price := 1, quantity := 1, total := 1 },
       { barcode := "b4", name := "P4", price := 1, quantity := 1, total := 1 },
       { barcode := "b5", name := "P5", price := 1, quantity := 1, total := 1 },
       { barcode := "b6", name := "P6", price := 1, quantity := 1, total := 1 }]
    subtotal := 6, tax := 0, total := 6, paymentMethod := .cash
    amountPaid := 10, change := 4, cashierName := "cash1"
    storeId := "st1", storeName := "Main", timestamp := 0 }

/-- Sum of the three per-method revenue cells. -/
def pmAmountSum (b : ByPaymentMethod) : ℚ :=
  b.cash.amount + b.mobile_money.amount + b.card.amount

/-- Sum of the three per-method sale counters. -/
def pmCountSum (b : ByPaymentMethod) : ℕ :=
  b.cash.count + b.mobile_money.count + b.card.count

/-- The sale record a successful `processSale envS db0 [itemA3] .cash 40 …`
produces. -/
def saleW : SaleRecord :=
  { id := "sale-1", receiptNumber := "RCP-1-A", items := [itemA3]
    subtotal := 30, tax := 0, total := 30, paymentMethod := .cash
    amountPaid := 40, change := 10, cashierName := "cash1"
    storeId := "st1", storeName := "Main", timestamp := 0 }

/-- A restock of 10 units of `prodA` as an operation. -/
def opR : Op := .restockOp envR "123" 10 "alice"

/-- A sale of 3 units of `prodA` as an operation. -/
def opSale : Op := .saleOp envS [itemA3] .cash 40 "cash1" "st1" "Main"

/-- Restock then sell, starting from `db0`. -/
def ops0 : List Op := [opR, opSale]

/-- A two-product catalog for the recommendation witness. -/
def products2 : List Product :=
  [{ barcode := "b1", name := "P1", price := 1, stock := 5, category := "Other" },
   { barcode := "b2", name := "P2", price := 1, stock := 5, category := "Other" }]

/-- A sale touching both products of `products2` once. -/
def sale2 : SaleRecord :=
  { id := "sale-2", receiptNumber := "RCP-2"
    items :=
      [{ barcode := "b1", name := "P1", price := 1, quantity := 1, total := 1 },
       { barcode := "b2", name := "P2", price := 1, quantity := 1, total := 1 }]
    subtotal := 2, tax := 0, total := 2, paymentMethod := .cash
    amountPaid := 5, change := 3, cashierName := "cash1"
    storeId := "st1", storeName := "Main", timestamp := 0 }

/-- The enriched recommendation row of product `b1` after `sale2`. -/
def rec1 : Recommendation :=
  toRecommendation { barcode := "b1", name := "P1", sold := 1, currentStock := 5 }

/-! ### Helper lemmas

Rational arithmetic is `@[irreducible]` in this toolchain; witnesses and
counterexamples evaluate concrete runs of the services by `decide`, so the
arithmetic is made transparent for the proofs of this file. -/

section

set_option allowUnsafeReducibility true

attribute [local semireducible] Rat.add Rat.mul Rat.sub Rat.div Rat.neg Rat.inv

theorem foldl_add_map {α : Type} (g : α → ℚ) (l : List α) (a : ℚ) :
    l.foldl (fun s x => s + g x) a = a + (l.map g).sum := by
  induction l generalizing a with
  | nil => simp
  | cons x xs ih => simp [ih, add_assoc]

theorem find?_updateFirst_of_disjoint {α : Type} {pred q : α → Bool}
    {f : α → α} (hq : ∀ x, q (f x) = q x)
    (hpq : ∀ x, pred x = true → q x = false) (l : List α) :
    (updateFirst pred f l).find? q = l.find? q := by
  induction l with
  | nil => rfl
  | cons x xs ih =>
    by_cases hx : pred x = true
    · simp [updateFirst, hx, List.find?_cons, hq x, hpq x hx]
    · simp [updateFirst, hx, List.find?_cons, ih]

theorem find?_updateFirst_self {α : Type} {pred : α → Bool} {f : α → α}
    (hf : ∀ x, pred (f x) = pred x) (l : List α) :
    (updateFirst pred f l).find? pred = (l.find? pred).map f := by
  induction l with
  | nil => rfl
  | cons x xs ih =>
    by_cases hx : pred x = true
    · simp [updateFirst, hx, List.find?_cons, hf x]
    · simp [updateFirst, hx, List.find?_cons, ih]

theorem mem_updateFirst {α : Type} {pred : α → Bool} {f : α → α}
    {l : List α} {y : α} (h : y ∈ updateFirst pred f l) :
    y ∈ l ∨ ∃ x, l.find? pred = some x ∧ y = f x := by
  induction l with
  | nil => simp [updateFirst] at h
  | cons x xs ih =>
    by_cases hx : pred x = true
    · simp only [updateFirst, hx, if_true] at h
      rcases List.mem_cons.mp h with h1 | h1
      · exact Or.inr ⟨x, by simp [List.find?_cons, hx], h1⟩
      · exact Or.inl (List.mem_cons_of_mem _ h1)
    · simp only [updateFirst, hx, if_false] at h
      rcases List.mem_cons.mp h with h1 | h1
      · exact Or.inl (h1 ▸ List.mem_cons_self _ _)
      · rcases ih h1 with h2 | ⟨z, hz, hy⟩
        · exact Or.inl (List.mem_cons_of_mem _ h2)
        · exact Or.inr ⟨z, by simp [List.find?_cons, hx, hz], hy⟩

theorem updateFirst_append {α : Type} {pred : α → Bool} (f : α → α)
    {l1 : List α} {x : α} (l2 : List α) (h1 : ∀ y ∈ l1, pred y = false)
    (hx : pred x = true) :
    updateFirst pred f (l1 ++ x :: l2) = l1 ++ f x :: l2 := by
  induction l1 with
  | nil => simp [updateFirst, hx]
  | cons a l1 ih =>
    have ha : pred a = false := h1 a (by simp)
    simp [updateFirst, ha, ih (fun y hy => h1 y (by simp [hy]))]

theorem findByBarcode_updateFirst_ne {b b' : String} {f : Product → Product}
    (hf : ∀ p, (f p).barcode = p.barcode) (hne : b' ≠ b) (l : List Product) :
    findByBarcode (updateFirst (fun p => p.barcode == b) f l) b' =
      findByBarcode l b' := by
  apply find?_updateFirst_of_disjoint
  · intro x; simp [hf x]
  · intro x hx
    have hxb : x.barcode = b := by simpa using hx
    simp only [hxb, beq_eq_false_iff_ne]
    exact Ne.symm hne

theorem findByBarcode_updateFirst_self {b : String} {f : Product → Product}
    (hf : ∀ p, (f p).barcode = p.barcode) (l : List Product) :
    findByBarcode (updateFirst (fun p => p.barcode == b) f l) b =
      (findByBarcode l b).map f := by
  apply find?_updateFirst_self
  intro x; simp [hf x]

theorem processSale_cases (env : SaleEnv) (db : DB) (items : List SaleItem)
    (pm : PaymentMethod) (paid : ℚ) (cn si sn : String) :
    (∃ msg, processSale env db items pm paid cn si sn = (.err msg, db)) ∨
    (∃ sale ch,
      processSale env db items pm paid cn si sn =
        (.ok sale ch,
          { db with products := deductStock db.products items,
                    sales := sale :: db.sales }) ∧
      sale.items = items ∧
      sale.subtotal = (items.map SaleItem.total).sum ∧
      sale.tax = sale.subtotal * 0 ∧
      sale.total = sale.subtotal + sale.tax ∧
      sale.amountPaid = paid ∧
      sale.change = paid - sale.total ∧
      ch = sale.change ∧
      ¬ paid < sale.total ∧
      checkStock db.products items = none) := by
  simp only [processSale]
  split
  · exact Or.inl ⟨_, rfl⟩
  · split
    · exact Or.inl ⟨_, rfl⟩
    · split
      · exact Or.inl ⟨_, rfl⟩
      · next hchk =>
        refine Or.inr ⟨_, _, rfl, rfl, ?_, rfl, rfl, rfl, rfl, rfl, ?_, hchk⟩
        · simp [foldl_add_map]
        · next hpaid _ => exact hpaid

/-- Claim C1: if `processSale` returns an unsuccessful result, the products
collection and the sales ledger (indeed the whole persisted state) are
exactly as they were before the call, so no SaleRecord is created. -/
theorem processSale_all_or_nothing (env : SaleEnv) (db : DB)
    (items : List SaleItem) (pm : PaymentMethod) (paid : ℚ)
    (cn si sn : String) (msg : String)
    (h : (processSale env db items pm paid cn si sn).1 = .err msg) :
    (processSale env db items pm paid cn si sn).2 = db := by
  rcases processSale_cases env db items pm paid cn si sn with
    ⟨m, hm⟩ | ⟨sale, ch, heq, _⟩
  · rw [hm]
  · rw [heq] at h; simp at h

/-- Witness for C1: a sale on an empty cart fails and leaves `db0` intact. -/
theorem processSale_all_or_nothing_witness :
    (processSale envS db0 [] .cash 0 "cash1" "st1" "Main").2 = db0 :=
  processSale_all_or_nothing envS db0 [] .cash 0 "cash1" "st1" "Main"
    "No items in cart" (by decide)

/-- Claim C3: every SaleRecord created by a successful `processSale` has
`subtotal` the sum of its items' totals, `tax = subtotal * 0` (the
configured rate), `total = subtotal + tax`, `amountPaid ≥ total` and
`change = amountPaid - total`; and a call paying less than the total is
rejected. -/
theorem processSale_payment_invariant (env : SaleEnv) (db : DB)
    (items : List SaleItem) (pm : PaymentMethod) (paid : ℚ)
    (cn si sn : String) :
    (∀ sale ch, (processSale env db items pm paid cn si sn).1 = .ok sale ch →
      sale.subtotal = (items.map SaleItem.total).sum ∧
      sale.tax = sale.subtotal * 0 ∧
      sale.total = sale.subtotal + sale.tax ∧
      sale.total ≤ sale.amountPaid ∧
      sale.change = sale.amountPaid - sale.total ∧
      sale.amountPaid = paid) ∧
    (paid < (items.map SaleItem.total).sum →
      ∃ msg, (processSale env db items pm paid cn si sn).1 = .err msg) := by
  rcases processSale_cases env db items pm paid cn si sn with
    ⟨m, hm⟩ | ⟨sale, ch, heq, hitems, hsub, htax, htot, hpaid, hchg, hch, hno, hchk⟩
  · constructor
    · intro sale ch h; rw [hm] at h; simp at h
    · intro _; exact ⟨m, by rw [hm]⟩
  · constructor
    · intro sale' ch' h
      rw [heq] at h
      simp only at h
      injection h with h1 h2
      subst h1
      refine ⟨hsub, htax, htot, ?_, ?_, hpaid⟩
      · rw [hpaid]; exact not_lt.mp hno
      · rw [hchg, hpaid]
    · intro hlt
      have htots : sale.total = (items.map SaleItem.total).sum := by
        rw [htot, htax, hsub]; ring
      exact absurd hlt (htots ▸ hno)

/-- Witness for C3: the concrete sale of `saleW` satisfies the payment
invariant with `amountPaid = 40`. -/
theorem processSale_payment_invariant_witness :
    saleW.subtotal = ([itemA3].map SaleItem.total).sum ∧
    saleW.tax = saleW.subtotal * 0 ∧
    saleW.total = saleW.subtotal + saleW.tax ∧
    saleW.total ≤ saleW.amountPaid ∧
    saleW.change = saleW.amountPaid - saleW.total ∧
    saleW.amountPaid = 40 :=
  (processSale_payment_invariant envS db0 [itemA3] .cash 40
    "cash1" "st1" "Main").1 saleW 10 (by decide)

/-- Claim C5: `restock` rejects non-positive quantities and unknown
barcodes leaving the state unchanged; on success the product's stock grows
by the quantity, other products are untouched, the sales ledger is
untouched, and exactly one StockLog with the before/after snapshot is
prepended at the head of the log. -/
theorem restock_contract (env : RestockEnv) (db : DB) (b : String)
    (q : ℤ) (pb : String) :
    (q ≤ 0 → restock env db b q pb = (.err "Quantity must be positive", db)) ∧
    (0 < q → findByBarcode db.products b = none →
      restock env db b q pb = (.err "Product not found", db)) ∧
    (0 < q → ∀ p, findByBarcode db.products b = some p →
      (restock env db b q pb).1 = .ok ∧
      findByBarcode (restock env db b q pb).2.products b =
        some { p with stock := p.stock + q } ∧
      (∀ b', b' ≠ b →
        findByBarcode (restock env db b q pb).2.products b' =
          findByBarcode db.products b') ∧
      (restock env db b q pb).2.sales = db.sales ∧
      (restock env db b q pb).2.stockLogs =
        { id := env.logId, barcode := b, productName := p.name,
          previousStock := p.stock, newStock := p.stock + q,
          quantityAdded := q, timestamp := env.now, performedBy := pb }
          :: db.stockLogs) := by
  refine ⟨?_, ?_, ?_⟩
  · intro hq
    simp [restock, hq]
  · intro hq hnone
    simp [restock, not_le.mpr hq, hnone]
  · intro hq p hp
    have hq' : ¬ q ≤ 0 := not_le.mpr hq
    refine ⟨?_, ?_, ?_, ?_, ?_⟩
    · simp [restock, hq', hp]
    · simp only [restock, hq', if_false, ite_false, hp]
      rw [findByBarcode_updateFirst_self
        (f := fun p1 => { p1 with stock := p.stock + q }) (fun _ => rfl)]
      rw [hp]
      rfl
    · intro b' hb'
      simp only [restock, hq', if_false, ite_false, hp]
      exact findByBarcode_updateFirst_ne
        (f := fun p1 => { p1 with stock := p.stock + q }) (fun _ => rfl) hb'
        db.products
    · simp [restock, hq', hp]
    · simp [restock, hq', hp]

/-- Witness for C5: restocking 10 units of the stock-5 product `prodA`
yields stock 15 and prepends the matching log entry. -/
theorem restock_contract_witness :
    (restock envR db0 "123" 10 "alice").1 = .ok ∧
    findByBarcode (restock envR db0 "123" 10 "alice").2.products "123" =
      some { prodA with stock := prodA.stock + 10 } ∧
    (∀ b', b' ≠ "123" →
      findByBarcode (restock envR db0 "123" 10 "alice").2.products b' =
        findByBarcode db0.products b') ∧
    (restock envR db0 "123" 10 "alice").2.sales = db0.sales ∧
    (restock envR db0 "123" 10 "alice").2.stockLogs =
      { id := envR.logId, barcode := "123", productName := prodA.name,
        previousStock := prodA.stock, newStock := prodA.stock + 10,
        quantityAdded := 10, timestamp := envR.now, performedBy := "alice" }
        :: db0.stockLogs :=
  (restock_contract envR db0 "123" 10 "alice").2.2 (by decide) prodA (by decide)

/-- Claim C6, amended: `create` always succeeds and appends exactly one
transfer to the collection; the new transfer copies every caller-supplied
field — its status included, which is whatever the input carries (the
repository's only call site passes `pending`) — plus a fresh id and
timestamp. -/
theorem transferCreate_spec (env : TransferEnv)
    (transfers : List StockTransfer) (t : TransferInput) :
    (StockTransferService.create env transfers t).1 = .ok ∧
    ∃ nt, (StockTransferService.create env transfers t).2 = transfers ++ [nt] ∧
      nt.status = t.status ∧ nt.fromStoreId = t.fromStoreId ∧
      nt.toStoreId = t.toStoreId ∧ nt.barcode = t.barcode ∧
      nt.productName = t.productName ∧ nt.quantity = t.quantity ∧
      nt.requestedBy = t.requestedBy ∧ nt.id = env.newId ∧
      nt.timestamp = env.now :=
  ⟨rfl, _, rfl, rfl, rfl, rfl, rfl, rfl, rfl, rfl, rfl, rfl⟩

/-- Counterexample to C6 as stated: `create` does not set the status; fed
an input whose status is `cancelled` it still succeeds, and the transfer
it appends is not pending. -/
theorem transferCreate_counterexample :
    (StockTransferService.create envT [] cancelledInput).1 = .ok ∧
    (StockTransferService.create envT [] cancelledInput).2.map
      StockTransfer.status = [.cancelled] :=
  ⟨rfl, rfl⟩

theorem find?_decomp {α : Type} {p : α → Bool} {l1 : List α} {x : α}
    (l2 : List α) (h1 : ∀ u ∈ l1, p u = false) (hx : p x = true) :
    (l1 ++ x :: l2).find? p = some x := by
  induction l1 with
  | nil => simp [List.find?_cons, hx]
  | cons a l1 ih =>
    have ha : p a = false := h1 a (by simp)
    simp only [List.cons_append, List.find?_cons, ha]
    exact ih (fun u hu => h1 u (by simp [hu]))

/-- Claim C7: on a stored transfer that is not pending, `complete` and
`cancel` both fail and leave the collection unchanged; on a pending
transfer both succeed, `complete` setting status completed and stamping
`completedAt`, `cancel` setting status cancelled — and on either resulting
collection both operations fail again, so a transfer leaves `pending` at
most once and completed/cancelled are terminal. -/
theorem transfer_state_machine (now : ℤ) (transfers : List StockTransfer)
    (tid : String) (t : StockTransfer)
    (hfind : transfers.find? (fun u => u.id == tid) = some t) :
    (t.status ≠ .pending →
      StockTransferService.complete now transfers tid =
        (.err "Transfer is not pending", transfers) ∧
      StockTransferService.cancel transfers tid =
        (.err "Can only cancel pending transfers", transfers)) ∧
    (t.status = .pending →
      ∃ l1 l2,
        transfers = l1 ++ t :: l2 ∧
        (∀ u ∈ l1, (u.id == tid) = false) ∧
        StockTransferService.complete now transfers tid =
          (.ok,
            l1 ++ { t with status := .completed, completedAt := some now } :: l2) ∧
        StockTransferService.cancel transfers tid =
          (.ok, l1 ++ { t with status := .cancelled } :: l2) ∧
        (∀ now2,
          StockTransferService.complete now2
              (l1 ++ { t with status := .completed, completedAt := some now } :: l2)
              tid =
            (.err "Transfer is not pending",
              l1 ++ { t with status := .completed, completedAt := some now } :: l2) ∧
          StockTransferService.cancel
              (l1 ++ { t with status := .completed, completedAt := some now } :: l2)
              tid =
            (.err "Can only cancel pending transfers",
              l1 ++ { t with status := .completed, completedAt := some now } :: l2) ∧
          StockTransferService.complete now2
              (l1 ++ { t with status := .cancelled } :: l2) tid =
            (.err "Transfer is not pending",
              l1 ++ { t with status := .cancelled } :: l2) ∧
          StockTransferService.cancel (l1 ++ { t with status := .cancelled } :: l2)
              tid =
            (.err "Can only cancel pending transfers",
              l1 ++ { t with status := .cancelled } :: l2))) := by
  have hpred : (t.id == tid) = true ∧
      ∃ as bs, transfers = as ++ t :: bs ∧ ∀ a ∈ as, !(a.id == tid) :=
    List.find?_eq_some.mp hfind
  constructor
  · intro hstat
    constructor
    · simp [StockTransferService.complete, hfind, hstat]
    · simp [StockTransferService.cancel, hfind, hstat]
  · intro hstat
    obtain ⟨hpt, l1, l2, hsplit, hl1⟩ := hpred
    have hl1' : ∀ u ∈ l1, (u.id == tid) = false := by
      intro u hu
      simpa using hl1 u hu
    refine ⟨l1, l2, hsplit, hl1', ?_, ?_, ?_⟩
    · simp only [StockTransferService.complete, hfind, hstat, ne_eq,
        not_true_eq_false, if_false, ite_false]
      rw [hsplit, updateFirst_append _ l2 hl1' hpt]
    · simp only [StockTransferService.cancel, hfind, hstat, ne_eq,
        not_true_eq_false, if_false, ite_false]
      rw [hsplit, updateFirst_append _ l2 hl1' hpt]
    · intro now2
      have hfC :
          (l1 ++ { t with status := TransferStatus.completed, completedAt := some now } :: l2).find?
              (fun u => u.id == tid) =
            some { t with status := .completed, completedAt := some now } :=
        find?_decomp l2 hl1' hpt
      have hfX :
          (l1 ++ ({ t with status := TransferStatus.cancelled } : StockTransfer) :: l2).find?
              (fun u => u.id == tid) =
            some { t with status := .cancelled } :=
        find?_decomp l2 hl1' hpt
      refine ⟨?_, ?_, ?_, ?_⟩
      · simp [StockTransferService.complete, hfC]
      · simp [StockTransferService.cancel, hfC]
      · simp [StockTransferService.complete, hfX]
      · simp [StockTransferService.cancel, hfX]

/-- Witness for C7: on the one-element collection holding the pending
transfer `t1`, both transitions behave as the state machine prescribes. -/
theorem transfer_state_machine_witness :
    ∃ l1 l2,
      [pendingT] = l1 ++ pendingT :: l2 ∧
      (∀ u ∈ l1, (u.id == "t1") = false) ∧
      StockTransferService.complete 5 [pendingT] "t1" =
        (.ok,
          l1 ++ { pendingT with status := .completed, completedAt := some 5 } :: l2) ∧
      StockTransferService.cancel [pendingT] "t1" =
        (.ok, l1 ++ { pendingT with status := .cancelled } :: l2) ∧
      (∀ now2,
        StockTransferService.complete now2
            (l1 ++ { pendingT with status := .completed, completedAt := some 5 } :: l2)
            "t1" =
          (.err "Transfer is not pending",
            l1 ++ { pendingT with status := .completed, completedAt := some 5 } :: l2) ∧
        StockTransferService.cancel
            (l1 ++ { pendingT with status := .completed, completedAt := some 5 } :: l2)
            "t1" =
          (.err "Can only cancel pending transfers",
            l1 ++ { pendingT with status := .completed, completedAt := some 5 } :: l2) ∧
        StockTransferService.complete now2
            (l1 ++ { pendingT with status := .cancelled } :: l2) "t1" =
          (.err "Transfer is not pending",
            l1 ++ { pendingT with status := .cancelled } :: l2) ∧
        StockTransferService.cancel (l1 ++ { pendingT with status := .cancelled } :: l2)
            "t1" =
          (.err "Can only cancel pending transfers",
            l1 ++ { pendingT with status := .cancelled } :: l2)) :=
  (transfer_state_machine 5 [pendingT] "t1" pendingT (by decide)).2 rfl

/-- Scanning preserves the cart discipline of one line per barcode, so the
nodup hypothesis of the scan theorem holds in every reachable cart state. -/
theorem handleScan_preserves_nodup (products : List Product)
    (cart : List CartItem) (b : String)
    (h : (cart.map (fun it => it.product.barcode)).Nodup) :
    (((handleScan products cart b).2).map (fun it => it.product.barcode)).Nodup := by
  cases hfind : findByBarcode products b with
  | none => simpa [handleScan, hfind]
  | some p =>
    cases hcart : cart.find? (fun it => it.product.barcode == b) with
    | some item =>
      by_cases hle : p.stock ≤ item.quantity
      · simpa [handleScan, hfind, hcart, hle]
      · have hbar : ∀ a : CartItem,
            (if a.product.barcode = b then
              ({ product := a.product, quantity := a.quantity + 1 } : CartItem)
            else a).product.barcode = a.product.barcode := by
          intro a
          by_cases hb : a.product.barcode = b <;> simp [hb]
        simpa [handleScan, hfind, hcart, hle, List.map_map,
          Function.comp_def, hbar]
    | none =>
      by_cases hz : p.stock = 0
      · simpa [handleScan, hfind, hcart, hz]
      · have hpb : p.barcode = b := by
          have := List.find?_some hfind
          simpa using this
        have hnot : ∀ it ∈ cart, ¬ it.product.barcode = b := by
          intro it hit
          have := List.find?_eq_none.mp hcart it hit
          simpa using this
        simp only [handleScan, hfind, hcart, hz, if_false, ite_false]
        simp only [List.map_append, List.map_cons, List.map_nil]
        rw [List.nodup_append]
        refine ⟨h, List.nodup_singleton _, ?_⟩
        intro x hx hx1
        simp only [List.mem_singleton] at hx1
        rcases List.mem_map.mp hx with ⟨it, hit, rfl⟩
        exact hnot it hit (by rw [hx1, hpb])

/-- Claim C4: `handleScan` fails with NotRegistered on an unknown barcode,
with StockLimitExceeded when the existing cart line is at or above the
product's stock, with OutOfStock when stock is 0 and no line exists — all
three leaving the cart unchanged — and otherwise increments the existing
line's quantity by exactly 1 or appends a fresh line with quantity 1. The
cart is assumed to keep one line per barcode, the discipline every
reachable cart state satisfies. -/
theorem handleScan_claim (products : List Product) (cart : List CartItem)
    (b : String) (hnodup : (cart.map (fun it => it.product.barcode)).Nodup) :
    (findByBarcode products b = none →
      handleScan products cart b = (.notRegistered, cart)) ∧
    (∀ p item, findByBarcode products b = some p →
      cart.find? (fun it => it.product.barcode == b) = some item →
      p.stock ≤ item.quantity →
      handleScan products cart b = (.stockLimitExceeded, cart)) ∧
    (∀ p, findByBarcode products b = some p →
      cart.find? (fun it => it.product.barcode == b) = none →
      p.stock = 0 →
      handleScan products cart b = (.outOfStock, cart)) ∧
    (∀ p item, findByBarcode products b = some p →
      cart.find? (fun it => it.product.barcode == b) = some item →
      item.quantity < p.stock →
      ∃ pre post, cart = pre ++ item :: post ∧
        handleScan products cart b =
          (.added, pre ++ { item with quantity := item.quantity + 1 } :: post)) ∧
    (∀ p, findByBarcode products b = some p →
      cart.find? (fun it => it.product.barcode == b) = none →
      p.stock ≠ 0 →
      handleScan products cart b =
        (.added, cart ++ [{ product := p, quantity := 1 }])) := by
  refine ⟨?_, ?_, ?_, ?_, ?_⟩
  · intro hfind
    simp [handleScan, hfind]
  · intro p item hfind hcart hle
    simp [handleScan, hfind, hcart, hle]
  · intro p hfind hcart hz
    simp [handleScan, hfind, hcart, hz]
  · intro p item hfind hcart hlt
    obtain ⟨hpred, pre, post, hsplit, hpre⟩ := List.find?_eq_some.mp hcart
    have hitem : item.product.barcode = b := by simpa using hpred
    have hpre' : ∀ a ∈ pre, ¬ a.product.barcode = b := by
      intro a ha
      have := hpre a ha
      simpa using this
    have hpost : ∀ a ∈ post, ¬ a.product.barcode = b := by
      have hn : (cart.map (fun it => it.product.barcode)).Nodup := hnodup
      rw [hsplit, List.map_append, List.map_cons] at hn
      have hn2 := hn.sublist (List.sublist_append_right _ _)
      have hb2 : item.product.barcode ∉ post.map (fun it => it.product.barcode) :=
        (List.nodup_cons.mp hn2).1
      intro a ha haeq
      exact hb2 (by rw [hitem, ← haeq] at *; exact List.mem_map_of_mem _ ha)
    refine ⟨pre, post, hsplit, ?_⟩
    have hmap :
        cart.map (fun it =>
          if it.product.barcode = b then
            ({ product := it.product, quantity := it.quantity + 1 } : CartItem)
          else it) = pre ++ { item with quantity := item.quantity + 1 } :: post := by
      rw [hsplit, List.map_append, List.map_cons]
      congr 1
      · refine (List.map_congr_left ?_).trans (List.map_id _)
        intro a ha
        exact if_neg (hpre' a ha)
      · congr 1
        · rw [if_pos hitem]
        · refine (List.map_congr_left ?_).trans (List.map_id _)
          intro a ha
          exact if_neg (hpost a ha)
    have hnle : ¬ p.stock ≤ item.quantity := not_le.mpr hlt
    simp [handleScan, hfind, hcart, hnle, hmap]
  · intro p hfind hcart hz
    simp [handleScan, hfind, hcart, hz]

/-- Witness for C4: scanning the in-stock product `123` into an empty cart
appends a fresh line with quantity 1. -/
theorem handleScan_claim_witness :
    handleScan [prodA] [] "123" =
      (.added, [] ++ [{ product := prodA, quantity := 1 }]) :=
  (handleScan_claim [prodA] [] "123" (by decide)).2.2.2.2 prodA
    (by decide) (by decide) (by decide)

theorem pmAmountSum_add (b : ByPaymentMethod) (pm : PaymentMethod) (amt : ℚ) :
    pmAmountSum (b.add pm amt) = pmAmountSum b + amt := by
  cases pm <;> simp [ByPaymentMethod.add, pmAmountSum] <;> ring

theorem pmCountSum_add (b : ByPaymentMethod) (pm : PaymentMethod) (amt : ℚ) :
    pmCountSum (b.add pm amt) = pmCountSum b + 1 := by
  cases pm <;> simp [ByPaymentMethod.add, pmCountSum] <;> omega

theorem pm_foldl_amount (l : List SaleRecord) (b : ByPaymentMethod) :
    pmAmountSum (l.foldl (fun acc s => acc.add s.paymentMethod s.total) b) =
      pmAmountSum b + (l.map SaleRecord.total).sum := by
  induction l generalizing b with
  | nil => simp
  | cons s ss ih => simp [ih, pmAmountSum_add, add_assoc]

theorem pm_foldl_count (l : List SaleRecord) (b : ByPaymentMethod) :
    pmCountSum (l.foldl (fun acc s => acc.add s.paymentMethod s.total) b) =
      pmCountSum b + l.length := by
  induction l generalizing b with
  | nil => simp
  | cons s ss ih =>
    rw [List.foldl_cons, ih, pmCountSum_add, List.length_cons]
    omega

/-- Claim C10: for every date window and optional store filter, the daily
totals are internally consistent — totalRevenue is the sum of the three
per-payment-method amounts and totalSales is the sum of the three
per-payment-method counts. -/
theorem getDailyTotals_consistent (sales : List SaleRecord) (s e : ℤ)
    (sid : Option String) :
    (getDailyTotals sales s e sid).totalRevenue =
      (getDailyTotals sales s e sid).byPaymentMethod.cash.amount +
      (getDailyTotals sales s e sid).byPaymentMethod.mobile_money.amount +
      (getDailyTotals sales s e sid).byPaymentMethod.card.amount ∧
    (getDailyTotals sales s e sid).totalSales =
      (getDailyTotals sales s e sid).byPaymentMethod.cash.count +
      (getDailyTotals sales s e sid).byPaymentMethod.mobile_money.count +
      (getDailyTotals sales s e sid).byPaymentMethod.card.count := by
  have h1 := pm_foldl_amount (getByDateRange sales s e sid) ByPaymentMethod.init
  have h2 := pm_foldl_count (getByDateRange sales s e sid) ByPaymentMethod.init
  have h3 := foldl_add_map SaleRecord.total (getByDateRange sales s e sid) 0
  have h01 : pmAmountSum ByPaymentMethod.init = 0 := rfl
  have h02 : pmCountSum ByPaymentMethod.init = 0 := rfl
  rw [h01, zero_add] at h1
  rw [h02, Nat.zero_add] at h2
  simp only [pmAmountSum] at h1
  simp only [pmCountSum] at h2
  constructor
  · simp only [getDailyTotals]
    rw [h3, zero_add]
    exact h1.symm
  · simp only [getDailyTotals]
    exact h2.symm

theorem foldl_add_id (l : List ℚ) (a : ℚ) :
    l.foldl (fun x y => x + y) a = a + l.sum := by
  induction l generalizing a with
  | nil => simp
  | cons x xs ih => simp [ih, add_assoc]

theorem mem_map_fst_addToBucket (bks : List (ℤ × ℚ)) (d : ℤ) (a : ℚ)
    (x : ℤ) :
    x ∈ (addToBucket bks d a).map Prod.fst ↔
      x = d ∨ x ∈ bks.map Prod.fst := by
  induction bks with
  | nil => simp [addToBucket]
  | cons hd tl ih =>
    obtain ⟨d0, v⟩ := hd
    by_cases hd0 : d0 = d
    · subst hd0
      simp [addToBucket]
    · simp [addToBucket, hd0, ih]
      tauto

theorem nodup_map_fst_addToBucket (bks : List (ℤ × ℚ)) (d : ℤ) (a : ℚ)
    (h : (bks.map Prod.fst).Nodup) :
    ((addToBucket bks d a).map Prod.fst).Nodup := by
  induction bks with
  | nil => simp [addToBucket]
  | cons hd tl ih =>
    obtain ⟨d0, v⟩ := hd
    by_cases hd0 : d0 = d
    · subst hd0
      have he : addToBucket ((d0, v) :: tl) d0 a = (d0, v + a) :: tl := by
        simp [addToBucket]
      rw [he]
      simpa using h
    · have he : addToBucket ((d0, v) :: tl) d a = (d0, v) :: addToBucket tl d a := by
        simp [addToBucket, hd0]
      rw [List.map_cons, List.nodup_cons] at h
      rw [he, List.map_cons, List.nodup_cons]
      refine ⟨?_, ih h.2⟩
      rw [mem_map_fst_addToBucket]
      rintro (rfl | hmem)
      · exact hd0 rfl
      · exact h.1 hmem

theorem sum_map_snd_addToBucket (bks : List (ℤ × ℚ)) (d : ℤ) (a : ℚ) :
    ((addToBucket bks d a).map Prod.snd).sum = (bks.map Prod.snd).sum + a := by
  induction bks with
  | nil => simp [addToBucket]
  | cons hd tl ih =>
    obtain ⟨d0, v⟩ := hd
    by_cases hd0 : d0 = d <;>
      simp [addToBucket, hd0, ih] <;> ring

theorem buckets_foldl_mem (sales : List SaleRecord) (acc : List (ℤ × ℚ))
    (x : ℤ) :
    (x ∈ (sales.foldl
        (fun b s => addToBucket b (dayOf s.timestamp) s.total) acc).map
          Prod.fst) ↔
      x ∈ acc.map Prod.fst ∨ x ∈ sales.map (fun s => dayOf s.timestamp) := by
  induction sales generalizing acc with
  | nil => simp
  | cons s ss ih =>
    simp only [List.foldl_cons, ih, mem_map_fst_addToBucket, List.map_cons,
      List.mem_cons]
    tauto

theorem buckets_foldl_nodup (sales : List SaleRecord) (acc : List (ℤ × ℚ))
    (h : (acc.map Prod.fst).Nodup) :
    ((sales.foldl
        (fun b s => addToBucket b (dayOf s.timestamp) s.total) acc).map
          Prod.fst).Nodup := by
  induction sales generalizing acc with
  | nil => exact h
  | cons s ss ih =>
    exact ih _ (nodup_map_fst_addToBucket _ _ _ h)

theorem buckets_foldl_sum (sales : List SaleRecord) (acc : List (ℤ × ℚ)) :
    ((sales.foldl
        (fun b s => addToBucket b (dayOf s.timestamp) s.total) acc).map
          Prod.snd).sum =
      (acc.map Prod.snd).sum + (sales.map SaleRecord.total).sum := by
  induction sales generalizing acc with
  | nil => simp
  | cons s ss ih =>
    rw [List.foldl_cons, ih, sum_map_snd_addToBucket, List.map_cons,
      List.sum_cons]
    ring

theorem dailyBuckets_sum (sales : List SaleRecord) :
    ((dailyBuckets sales).map Prod.snd).sum = (sales.map SaleRecord.total).sum := by
  simpa [dailyBuckets] using buckets_foldl_sum sales []

theorem dailyBuckets_length (sales : List SaleRecord) :
    (dailyBuckets sales).length = distinctDayCount sales := by
  have hnodup : ((dailyBuckets sales).map Prod.fst).Nodup :=
    buckets_foldl_nodup sales [] (by simp)
  have hset : ((dailyBuckets sales).map Prod.fst).toFinset =
      (sales.map (fun s => dayOf s.timestamp)).toFinset := by
    ext x
    have := buckets_foldl_mem sales [] x
    simp only [List.map_nil, List.not_mem_nil, false_or] at this
    simp [List.mem_toFinset, dailyBuckets, this]
  calc (dailyBuckets sales).length
      = ((dailyBuckets sales).map Prod.fst).length := (List.length_map _ _).symm
    _ = ((dailyBuckets sales).map Prod.fst).toFinset.card :=
        (List.toFinset_card_of_nodup hnodup).symm
    _ = ((sales.map (fun s => dayOf s.timestamp)).toFinset).card := by rw [hset]
    _ = distinctDayCount sales := List.card_toFinset _

/-- Claim C8: with fewer than 7 sales in the window the forecast is the
insufficient-data sentinel; with at least 7 sales, averageDaily is the
arithmetic mean of the per-calendar-day revenue buckets — total window
revenue divided by the number of distinct sale days — and predictedWeekly
is 7 times that. -/
theorem forecast_claim (sales : List SaleRecord) :
    (sales.length < 7 → forecast sales = none) ∧
    (7 ≤ sales.length →
      forecast sales = some
        { averageDaily :=
            (sales.map SaleRecord.total).sum / (distinctDayCount sales : ℚ)
          predictedWeekly :=
            (sales.map SaleRecord.total).sum / (distinctDayCount sales : ℚ) * 7 }) := by
  constructor
  · intro h
    simp [forecast, h]
  · intro h
    have h7 : ¬ sales.length < 7 := not_lt.mpr h
    have hsum : ((dailyBuckets sales).map Prod.snd).foldl (fun x y => x + y) 0 =
        (sales.map SaleRecord.total).sum := by
      rw [foldl_add_id, zero_add, dailyBuckets_sum]
    have hlen : ((dailyBuckets sales).map Prod.snd).length =
        distinctDayCount sales := by
      rw [List.length_map, dailyBuckets_length]
    simp [forecast, h7, hsum, hlen]

/-- Witness for C8: seven same-day sales of 10 produce an averageDaily of
70 over one bucket day and a predictedWeekly of 490. -/
theorem forecast_claim_witness :
    forecast sales7 = some
      { averageDaily :=
          (sales7.map SaleRecord.total).sum / (distinctDayCount sales7 : ℚ)
        predictedWeekly :=
          (sales7.map SaleRecord.total).sum / (distinctDayCount sales7 : ℚ) * 7 } :=
  (forecast_claim sales7).2 (by decide)

/-- Claim C9, amended: every listed entry is a product sold in the window
that is flagged (daysRemaining < 14 or currentStock < 10); the list is
sorted ascending by daysRemaining; each entry's suggested restock quantity
is 2× the units sold; but the list keeps only the first 5 flagged products
in that order — when at most 5 qualify every flagged product is listed,
and otherwise the overflow is dropped. -/
theorem restockRecommendations_claim (products : List Product)
    (sales : List SaleRecord) :
    (∀ r ∈ restockRecommendations products sales,
      flagged r = true ∧
      r ∈ (productSalesStats products sales).map toRecommendation) ∧
    (restockRecommendations products sales).Pairwise recOrder ∧
    (∀ r : Recommendation, suggestedRestock r = 2 * r.sold) ∧
    (restockRecommendations products sales).length =
      min 5 (((productSalesStats products sales).map toRecommendation).filter
        flagged).length ∧
    ((((productSalesStats products sales).map toRecommendation).filter
        flagged).length ≤ 5 →
      ∀ r, flagged r = true →
        r ∈ (productSalesStats products sales).map toRecommendation →
        r ∈ restockRecommendations products sales) := by
  refine ⟨?_, ?_, ?_, ?_, ?_⟩
  · intro r hr
    have hr1 : r ∈ List.insertionSort recOrder
        (((productSalesStats products sales).map toRecommendation).filter
          flagged) :=
      List.take_subset _ _ hr
    have hr2 := (List.mem_insertionSort recOrder).mp hr1
    have hr3 := List.mem_filter.mp hr2
    exact ⟨hr3.2, hr3.1⟩
  · exact (List.sorted_insertionSort recOrder _).sublist (List.take_sublist _ _)
  · intro r
    have hcast : (r.sold : ℚ) * 2 = ((2 * r.sold : ℤ) : ℚ) := by
      push_cast
      ring
    rw [suggestedRestock, hcast, Int.ceil_intCast]
  · rw [restockRecommendations, List.length_take, List.length_insertionSort]
  · intro hle r hflag hmem
    have hmemf : r ∈ ((productSalesStats products sales).map
        toRecommendation).filter flagged :=
      List.mem_filter.mpr ⟨hmem, hflag⟩
    have hlen : (List.insertionSort recOrder
        (((productSalesStats products sales).map toRecommendation).filter
          flagged)).length ≤ 5 := by
      rw [List.length_insertionSort]
      exact hle
    rw [restockRecommendations, List.take_of_length_le hlen]
    exact (List.mem_insertionSort recOrder).mpr hmemf

/-- Witness for C9 (amended): with only two flagged products, the row of
product `b1` is listed. -/
theorem restockRecommendations_claim_witness :
    rec1 ∈ restockRecommendations products2 [sale2] :=
  (restockRecommendations_claim products2 [sale2]).2.2.2.2 (by decide) rec1
    (by decide) (by decide)

/-- Counterexample to C9 as stated: six products are sold in the window
and all six are flagged (stock 5 < 10), but the recommendation list is
capped at 5 entries and product `b6` is dropped. -/
theorem restockRecommendations_counterexample :
    ((productSalesStats products6 [sale6]).any
      (fun st => st.barcode == "b6" && decide (st.currentStock < 10))) = true ∧
    (restockRecommendations products6 [sale6]).length = 5 ∧
    (restockRecommendations products6 [sale6]).all
      (fun r => !(r.barcode == "b6")) = true := by
  refine ⟨by decide, by decide, by decide⟩

theorem findByBarcode_updateFirst_isSome {b0 : String} {f : Product → Product}
    (hf : ∀ p, (f p).barcode = p.barcode) (l : List Product) (b : String) :
    (findByBarcode (updateFirst (fun p => p.barcode == b0) f l) b).isSome =
      (findByBarcode l b).isSome := by
  by_cases hb : b = b0
  · subst hb
    rw [findByBarcode_updateFirst_self hf]
    cases findByBarcode l b <;> simp
  · rw [findByBarcode_updateFirst_ne hf hb]

theorem stockOf_eq (l : List Product) (b : String) (p : Product)
    (hp : findByBarcode l b = some p) : stockOf l b = p.stock := by
  simp [stockOf, hp]

theorem findByBarcode_deductStock_isSome (items : List SaleItem)
    (l : List Product) (b : String) :
    (findByBarcode (deductStock l items) b).isSome =
      (findByBarcode l b).isSome := by
  induction items generalizing l with
  | nil => rfl
  | cons i is ih =>
    have hcons : deductStock l (i :: is) =
        deductStock (updateFirst (fun p => p.barcode == i.barcode)
          (fun p => { p with stock := p.stock - i.quantity }) l) is := by
      simp [deductStock]
    rw [hcons, ih,
      findByBarcode_updateFirst_isSome
        (f := fun p => { p with stock := p.stock - i.quantity }) (fun _ => rfl)]

theorem stockOf_deductStock (items : List SaleItem) (l : List Product)
    (b : String) (h : (findByBarcode l b).isSome) :
    stockOf (deductStock l items) b =
      stockOf l b -
        (items.map (fun i => if i.barcode = b then i.quantity else 0)).sum := by
  induction items generalizing l with
  | nil => simp [deductStock]
  | cons i is ih =>
    have hcons : deductStock l (i :: is) =
        deductStock (updateFirst (fun p => p.barcode == i.barcode)
          (fun p => { p with stock := p.stock - i.quantity }) l) is := by
      simp [deductStock]
    have hpres2 : (findByBarcode (updateFirst (fun p => p.barcode == i.barcode)
        (fun p => { p with stock := p.stock - i.quantity }) l) b).isSome := by
      rw [findByBarcode_updateFirst_isSome
        (f := fun p => { p with stock := p.stock - i.quantity }) (fun _ => rfl)]
      exact h
    obtain ⟨p, hp⟩ := Option.isSome_iff_exists.mp h
    have hstep : stockOf (updateFirst (fun p => p.barcode == i.barcode)
        (fun p => { p with stock := p.stock - i.quantity }) l) b =
        stockOf l b - (if i.barcode = b then i.quantity else 0) := by
      by_cases hb : i.barcode = b
      · subst hb
        have hfind2 := findByBarcode_updateFirst_self
          (f := fun x => { x with stock := x.stock - i.quantity })
          (fun _ => rfl) l (b := i.barcode)
        rw [hp] at hfind2
        rw [stockOf_eq _ _ _ hfind2, stockOf_eq _ _ _ hp]
        simp
      · have hb' : b ≠ i.barcode := fun hx => hb hx.symm
        have hfind2 := findByBarcode_updateFirst_ne
          (f := fun x => { x with stock := x.stock - i.quantity })
          (fun _ => rfl) hb' l
        simp [stockOf, hfind2, hb]
    rw [hcons, ih _ hpres2, hstep, List.map_cons, List.sum_cons]
    ring

theorem checkStock_none_cons {l : List Product} {i : SaleItem}
    {is : List SaleItem} (h : checkStock l (i :: is) = none) :
    ∃ p, findByBarcode l i.barcode = some p ∧ ¬ p.stock < i.quantity ∧
      checkStock l is = none := by
  cases hfind : findByBarcode l i.barcode with
  | none => simp [checkStock, hfind] at h
  | some p =>
    simp only [checkStock, hfind] at h
    by_cases hlt : p.stock < i.quantity
    · rw [if_pos hlt] at h
      simp at h
    · rw [if_neg hlt] at h
      exact ⟨p, rfl, hlt, h⟩

theorem checkStock_updateFirst_of_not_mem (is : List SaleItem)
    (l : List Product) (β : String) (f : Product → Product)
    (hf : ∀ p, (f p).barcode = p.barcode)
    (hβ : β ∉ is.map SaleItem.barcode) :
    checkStock (updateFirst (fun p => p.barcode == β) f l) is =
      checkStock l is := by
  induction is generalizing l with
  | nil => rfl
  | cons i is ih =>
    simp only [List.map_cons, List.mem_cons, not_or] at hβ
    have hne : i.barcode ≠ β := fun hx => hβ.1 hx.symm
    rw [checkStock, checkStock, findByBarcode_updateFirst_ne hf hne]
    cases findByBarcode l i.barcode with
    | none => rfl
    | some p =>
      by_cases hlt : p.stock < i.quantity
      · simp [hlt]
      · simp [hlt, ih l hβ.2]

theorem deductStock_nonneg (items : List SaleItem) (l : List Product)
    (hchk : checkStock l items = none)
    (hnd : (items.map SaleItem.barcode).Nodup)
    (h : ∀ p ∈ l, 0 ≤ p.stock) :
    ∀ p ∈ deductStock l items, 0 ≤ p.stock := by
  induction items generalizing l with
  | nil => simpa [deductStock] using h
  | cons i is ih =>
    obtain ⟨pi, hfind, hge, hrest⟩ := checkStock_none_cons hchk
    rw [List.map_cons, List.nodup_cons] at hnd
    have hstep : ∀ p ∈ updateFirst (fun p => p.barcode == i.barcode)
        (fun p => { p with stock := p.stock - i.quantity }) l, 0 ≤ p.stock := by
      intro p hp
      rcases mem_updateFirst hp with hmem | ⟨x, hx, rfl⟩
      · exact h p hmem
      · have hxp : x = pi := by
          have h2 : l.find? (fun p => p.barcode == i.barcode) = some pi := hfind
          rw [h2] at hx
          exact (Option.some_inj.mp hx).symm
        subst hxp
        have : i.quantity ≤ x.stock := not_lt.mp hge
        simp only []
        omega
    have hcons : deductStock l (i :: is) =
        deductStock (updateFirst (fun p => p.barcode == i.barcode)
          (fun p => { p with stock := p.stock - i.quantity }) l) is := by
      simp [deductStock]
    have hchk2 : checkStock (updateFirst (fun p => p.barcode == i.barcode)
        (fun p => { p with stock := p.stock - i.quantity }) l) is =
        checkStock l is :=
      checkStock_updateFirst_of_not_mem is l i.barcode _ (fun _ => rfl) hnd.1
    rw [hcons]
    exact ih _ (by rw [hchk2]; exact hrest) hnd.2 hstep

theorem stepOp_isSome (db : DB) (op : Op) (b : String)
    (h : (stepOp db op).1 = true) :
    (findByBarcode (stepOp db op).2.products b).isSome =
      (findByBarcode db.products b).isSome := by
  cases op with
  | restockOp env b0 q pb =>
    by_cases hq : q ≤ 0
    · simp [stepOp, restock, hq] at h
    · cases hfind : findByBarcode db.products b0 with
      | none => simp [stepOp, restock, hq, hfind] at h
      | some p =>
        simp only [stepOp, restock, hq, hfind, if_false, ite_false]
        exact findByBarcode_updateFirst_isSome
          (f := fun x => { x with stock := p.stock + q }) (fun _ => rfl)
          db.products b
  | saleOp env items pm paid cn si sn =>
    rcases processSale_cases env db items pm paid cn si sn with
      ⟨m, hm⟩ | ⟨sale, ch, heq, _⟩
    · simp [stepOp, hm] at h
    · simp only [stepOp, heq]
      exact findByBarcode_deductStock_isSome items db.products b

theorem stepOp_stockOf (db : DB) (op : Op) (b : String)
    (h : (stepOp db op).1 = true)
    (hpres : (findByBarcode db.products b).isSome) :
    stockOf (stepOp db op).2.products b =
      stockOf db.products b + (restockedOf b op - soldOf b op) := by
  cases op with
  | restockOp env b0 q pb =>
    by_cases hq : q ≤ 0
    · simp [stepOp, restock, hq] at h
    · cases hfind : findByBarcode db.products b0 with
      | none => simp [stepOp, restock, hq, hfind] at h
      | some p =>
        simp only [stepOp, restock, hq, hfind, if_false, ite_false]
        by_cases hb : b0 = b
        · subst hb
          have hfind2 := findByBarcode_updateFirst_self
            (f := fun x => { x with stock := p.stock + q }) (fun _ => rfl)
            db.products (b := b0)
          rw [hfind] at hfind2
          rw [stockOf_eq _ _ _ hfind2, stockOf_eq _ _ _ hfind]
          simp [restockedOf, soldOf]
        · have hb' : b ≠ b0 := fun hx => hb hx.symm
          have hfind2 := findByBarcode_updateFirst_ne
            (f := fun x => { x with stock := p.stock + q }) (fun _ => rfl) hb'
            db.products
          simp [stockOf, hfind2, restockedOf, soldOf, hb]
  | saleOp env items pm paid cn si sn =>
    rcases processSale_cases env db items pm paid cn si sn with
      ⟨m, hm⟩ | ⟨sale, ch, heq, _⟩
    · simp [stepOp, hm] at h
    · simp only [stepOp, heq]
      rw [stockOf_deductStock items db.products b hpres]
      simp [restockedOf, soldOf]
      ring

theorem stepOp_nonneg (db : DB) (op : Op)
    (h : (stepOp db op).1 = true)
    (hnd : saleItemsNodup op = true)
    (hnn : ∀ p ∈ db.products, 0 ≤ p.stock) :
    ∀ p ∈ (stepOp db op).2.products, 0 ≤ p.stock := by
  cases op with
  | restockOp env b0 q pb =>
    by_cases hq : q ≤ 0
    · simp [stepOp, restock, hq] at h
    · cases hfind : findByBarcode db.products b0 with
      | none => simp [stepOp, restock, hq, hfind] at h
      | some p =>
        simp only [stepOp, restock, hq, hfind, if_false, ite_false]
        intro x hx
        rcases mem_updateFirst hx with hmem | ⟨y, hy, rfl⟩
        · exact hnn x hmem
        · have hyp : y = p := by
            have h2 : db.products.find? (fun x => x.barcode == b0) = some p := hfind
            rw [h2] at hy
            exact (Option.some_inj.mp hy).symm
          subst hyp
          have h0 : 0 ≤ y.stock := hnn y (List.mem_of_find?_eq_some hfind)
          simp only []
          omega
  | saleOp env items pm paid cn si sn =>
    rcases processSale_cases env db items pm paid cn si sn with
      ⟨m, hm⟩ | ⟨sale, ch, heq, hrest⟩
    · simp [stepOp, hm] at h
    · obtain ⟨_, _, _, _, _, _, _, _, hchk⟩ := hrest
      simp only [stepOp, heq]
      have hnd' : (items.map SaleItem.barcode).Nodup := by
        simpa [saleItemsNodup] using hnd
      exact deductStock_nonneg items db.products hchk hnd' hnn

/-- Claim C2, amended: over any sequence of successful restock and
processSale operations, the tracked product's final stock equals its
initial stock plus the restocked quantities minus the quantities sold
(conservation holds unconditionally); and provided each sale's line items
carry pairwise-distinct barcodes — the discipline the cashier cart
enforces — a state whose stocks are all non-negative only ever reaches
states whose stocks are all non-negative. -/
theorem stock_conservation (db : DB) (ops : List Op) (b : String)
    (hsucc : opsSucceed db ops = true)
    (hpres : (findByBarcode db.products b).isSome) :
    (stockOf (runOps db ops).products b =
      stockOf db.products b +
        ((ops.map (restockedOf b)).sum - (ops.map (soldOf b)).sum)) ∧
    ((∀ op ∈ ops, saleItemsNodup op = true) →
      (∀ p ∈ db.products, 0 ≤ p.stock) →
      ∀ p ∈ (runOps db ops).products, 0 ≤ p.stock) := by
  induction ops generalizing db with
  | nil =>
    constructor
    · simp [runOps]
    · intro _ hnn
      simpa [runOps] using hnn
  | cons op rest ih =>
    rw [opsSucceed, Bool.and_eq_true] at hsucc
    obtain ⟨h1, h2⟩ := hsucc
    have hpres2 : (findByBarcode (stepOp db op).2.products b).isSome := by
      rw [stepOp_isSome db op b h1]
      exact hpres
    have ihs := ih (stepOp db op).2 h2 hpres2
    constructor
    · rw [runOps, ihs.1, stepOp_stockOf db op b h1 hpres]
      simp only [List.map_cons, List.sum_cons]
      ring
    · intro hnd hnn
      rw [runOps]
      exact ihs.2 (fun o ho => hnd o (List.mem_cons_of_mem _ ho))
        (stepOp_nonneg db op h1 (hnd op (List.mem_cons_self _ _)) hnn)

/-- Witness for C2 (amended): restocking 10 then selling 3 units of the
stock-5 product leaves stock 5 + (10 - 3) = 12. -/
theorem stock_conservation_witness :
    stockOf (runOps db0 ops0).products "123" =
      stockOf db0.products "123" +
        ((ops0.map (restockedOf "123")).sum - (ops0.map (soldOf "123")).sum) :=
  (stock_conservation db0 ops0 "123" (by decide) (by decide)).1

/-- Counterexample to C2 as stated: from an all-non-negative state, one
successful `processSale` whose cart lists the same barcode on two lines
(each line passing the per-line check against the un-deducted stock 5)
drives the product's stock to −1. -/
theorem stock_conservation_counterexample :
    (∀ p ∈ db0.products, 0 ≤ p.stock) ∧
    (stepOp db0 dupSaleOp).1 = true ∧
    (stepOp db0 dupSaleOp).2.products.map Product.stock = [-1] := by
  refine ⟨by decide, by decide, by decide⟩

end

end POS
